import Mathlib

/-!
Verification development for the "alleviate" diagnostic-aid library
(src/alleviate/__init__.py and src/alleviate/disas/__init__.py, Python 2).

The Python code is shallowly embedded:
* Python exception objects are modelled by the record PyExc; an attribute that
  may be missing (errno, filename) is an Option, and reading a missing
  attribute raises PyErr.attributeError.
* Fallible Python code is modelled in the Except PyErr monad; PyErr names the
  Python exception class that the corresponding operation raises.
* Filesystem and interpreter state (current working directory, directory
  listings, stat results, the resolved call label obtained from the live
  traceback) are explicit inputs gathered in the Env record, since they are
  host-runtime state, not code of this repository.
* The third-party difflib.SequenceMatcher ratio is opaque per the spec: it is
  an explicit rational-valued parameter; only its contract (a similarity ratio
  in the interval from 0 to 1) is assumed where a theorem needs it.
-/

/-- Python exception kinds raised by the modelled code paths. -/
inductive PyErr where
  | attributeError
  | typeError
  | indexError
  | valueError
  | keyError
  | nameError
deriving DecidableEq, Repr

/-- Python runtime values appearing as bytecode immediates, call operands and
resolved objects.  Opaque objects (modules, functions) carry a tag string. -/
inductive PyVal where
  | none
  | int (n : Int)
  | str (s : String)
  | obj (tag : String)
deriving DecidableEq, Repr

/-- The error object handed to the entry point.  typeName models
type(exc).__name__, message models exc.message; errno and filename model the
optional attributes of OSError/IOError objects. -/
structure PyExc where
  typeName : String
  message : String
  errno : Option Int := Option.none
  filename : Option String := Option.none
deriving DecidableEq, Repr

/-- Reading a Python attribute that may be absent: absent raises AttributeError. -/
def pyAttr {α : Type} (o : Option α) : Except PyErr α :=
  match o with
  | Option.none => .error .attributeError
  | some v => .ok v

/-- Python list indexing l[n] for n ≥ 0: out of range raises IndexError. -/
def pyListGet {α : Type} (l : List α) (n : Nat) : Except PyErr α :=
  match l.get? n with
  | Option.none => .error .indexError
  | some v => .ok v

/-- Python s * n for a string s and integer n: the empty string when n ≤ 0. -/
def pyRepeatStr (s : String) (n : Int) : String :=
  String.join (List.replicate n.toNat s)

/-- The whitespace set of Python str.strip(): space, tab, newline, carriage
return, vertical tab, form feed. -/
def isPySpace (c : Char) : Bool :=
  c = ' ' || c = '\t' || c = '\n' || c = '\r' || c = '\x0b' || c = '\x0c'

/-- Python str.strip(): remove leading and trailing whitespace. -/
def pyStrip (s : String) : String :=
  String.mk (((s.data.dropWhile isPySpace).reverse.dropWhile isPySpace).reverse)

/-- class Output: the three output-format constants plain / detailed / json. -/
inductive Output where
  | Plain
  | Detailed
  | JSON
deriving DecidableEq, Repr

/-- The report-item classes Description, Solution, Symptom, Header, Separator,
one constructor per class, fields as in the source (Separator num defaults
to 0 in Python; call sites pass it explicitly here). -/
inductive Item where
  | description (text : String)
  | solution (description solution : String)
  | symptom (name value : String)
  | header (title : String)
  | separator (num : Nat)
deriving DecidableEq, Repr

/-- isinstance(x, Description) -/
def Item.isDescription : Item → Bool
  | .description _ => true
  | _ => false

/-- isinstance(x, Symptom) -/
def Item.isSymptom : Item → Bool
  | .symptom _ _ => true
  | _ => false

/-- isinstance(x, Solution) -/
def Item.isSolution : Item → Bool
  | .solution _ _ => true
  | _ => false

/-- item.text of a Description item (call sites only apply it to Description
items, filtered by isDescription, mirroring the dynamic attribute access). -/
def Item.textOf : Item → String
  | .description t => t
  | _ => ""

/-- class AlleviateContext: the item list in append order, the selected output
format and the originating error object. -/
structure AlleviateContext where
  items : List Item
  format : Output
  exception : PyExc
deriving DecidableEq, Repr

/-- class ItemRender: indent is fixed at construction (1); column is set by
Renderer.render_detailed to the longest symptom name before rendering. -/
structure ItemRender where
  indent : Nat := 1
  column : Nat := 0
deriving DecidableEq, Repr

/-- ItemRender.i: three spaces repeated indent times. -/
def ItemRender.i (r : ItemRender) : String :=
  pyRepeatStr "   " r.indent

def ItemRender.render_plain_description (_r : ItemRender) (text : String) : String :=
  text ++ "\n"

def ItemRender.render_detailed_description (_r : ItemRender) (text : String) : String :=
  text ++ "\n"

def ItemRender.render_json_description (text : String) : String :=
  text

def ItemRender.render_plain_solution (_r : ItemRender) (_desc sol : String) : String :=
  sol ++ "\n"

def ItemRender.render_detailed_solution (r : ItemRender) (desc sol : String) : String :=
  r.i ++ desc ++ ":\n\n" ++ sol ++ "\n"

def ItemRender.render_json_solution (_desc sol : String) : String :=
  sol

def ItemRender.render_plain_symptom (_r : ItemRender) (_name _value : String) : String :=
  ""

/-- render_detailed_symptom: self.i + '{}:{}{}\n'.format(name, padding, value)
where the padding is the single space character repeated
1 + len(name) - self.column times (a Python string times a non-positive
integer is the empty string). -/
def ItemRender.render_detailed_symptom (r : ItemRender) (name value : String) : String :=
  r.i ++ name ++ ":" ++ pyRepeatStr " " (1 + (name.length : Int) - (r.column : Int)) ++ value ++ "\n"

/-- render_json_symptom returns the dict with keys name and value, modelled as
the pair (name, value). -/
def ItemRender.render_json_symptom (name value : String) : String × String :=
  (name, value)

def ItemRender.render_plain_header (_r : ItemRender) (title : String) : String :=
  title ++ "\n"

def ItemRender.render_detailed_header (_r : ItemRender) (title : String) : String :=
  title ++ "\n" ++ pyRepeatStr "-" (title.length : Int) ++ "\n"

def ItemRender.render_plain_separator (_r : ItemRender) (num : Nat) : String :=
  pyRepeatStr "\n" (num : Int)

def ItemRender.render_detailed_separator (_r : ItemRender) (num : Nat) : String :=
  pyRepeatStr "\n" (num : Int)

/-- Renderer._render for format plain: the getattr name dispatch
render_plain_<classname> is the match on the item's class. -/
def renderPlainItem (r : ItemRender) : Item → String
  | .description t => r.render_plain_description t
  | .solution d s => r.render_plain_solution d s
  | .symptom n v => r.render_plain_symptom n v
  | .header t => r.render_plain_header t
  | .separator n => r.render_plain_separator n

/-- Renderer._render for format detailed. -/
def renderDetailedItem (r : ItemRender) : Item → String
  | .description t => r.render_detailed_description t
  | .solution d s => r.render_detailed_solution d s
  | .symptom n v => r.render_detailed_symptom n v
  | .header t => r.render_detailed_header t
  | .separator n => r.render_detailed_separator n

/-- Renderer.render_plain: concatenate each item's plain rendering plus one
extra newline, in item order. -/
def render_plain (ctx : AlleviateContext) : String :=
  String.join (ctx.items.map fun it => renderPlainItem {} it ++ "\n")

/-- Renderer.render_detailed: max(len(s.name) for s in symptoms) raises
ValueError on an empty generator; otherwise the maximum is stored in the
item renderer's column field and each item's detailed rendering plus one
extra newline is concatenated in item order. -/
def render_detailed (ctx : AlleviateContext) : Except PyErr String :=
  match (ctx.items.filter Item.isSymptom).map (fun it =>
      match it with
      | .symptom n _ => n.length
      | _ => 0) with
  | [] => .error .valueError
  | x :: xs =>
    let max_name_length := xs.foldl max x
    .ok (String.join (ctx.items.map fun it =>
      renderDetailedItem { indent := 1, column := max_name_length } it ++ "\n"))

/-- The JSON document produced by Renderer.render_json, field for field. -/
structure JsonReport where
  description : String
  exception : String
  message : String
  symptoms : List (String × String)
  solutions : List String
deriving DecidableEq, Repr

/-- Renderer.render_json: _by_type(Description)[0] raises IndexError when the
context holds no Description item; otherwise the document is built from the
first description (stripped), the error's runtime type name, its message, the
json rendering of every Symptom item in order and the stripped json rendering
of every Solution item in order. -/
def render_json (ctx : AlleviateContext) : Except PyErr JsonReport :=
  match ctx.items.filter Item.isDescription with
  | [] => .error .indexError
  | d :: _ =>
    .ok {
      description := pyStrip (Item.textOf d),
      exception := ctx.exception.typeName,
      message := ctx.exception.message,
      symptoms := (ctx.items.filter Item.isSymptom).map fun it =>
        match it with
        | .symptom n v => ItemRender.render_json_symptom n v
        | _ => ("", ""),
      solutions := (ctx.items.filter Item.isSolution).map fun it =>
        match it with
        | .solution d s => pyStrip (ItemRender.render_json_solution d s)
        | _ => "" }

/-- What Renderer.render returns: a plain/detailed text, or the json.dumps
call on the report document with its indent argument (3 in the source). -/
inductive Rendered where
  | text (s : String)
  | jsonDump (doc : JsonReport) (indent : Nat)
deriving DecidableEq, Repr

/-- Renderer.render: dispatch on the context's format
(getattr(self, 'render_' + format)). -/
def Renderer.render (ctx : AlleviateContext) : Except PyErr Rendered :=
  match ctx.format with
  | .Plain => .ok (.text (render_plain ctx))
  | .Detailed => (render_detailed ctx).map .text
  | .JSON => (render_json ctx).map fun j => .jsonDump j 3

/-! ## POSIX path helpers (os.path, Python 2 posixpath semantics) -/

/-- Index of the last '/' in a character list, if any. -/
def lastSlashIdx : List Char → Option Nat
  | [] => Option.none
  | c :: rest =>
    match lastSlashIdx rest with
    | some k => some (k + 1)
    | Option.none => if c = '/' then some 0 else Option.none

/-- s.startswith('/') on the character list. -/
def startsWithSlash (p : String) : Bool :=
  match p.data with
  | '/' :: _ => true
  | _ => false

/-- s.endswith('/') on the character list. -/
def endsWithSlash (p : String) : Bool :=
  match p.data.getLast? with
  | some '/' => true
  | _ => false

/-- os.path.isabs -/
def pyIsAbs (p : String) : Bool :=
  startsWithSlash p

/-- os.path.join(a, b) for two components (posixpath.join). -/
def pyJoin (a b : String) : String :=
  if startsWithSlash b then b
  else if a = "" || endsWithSlash a then a ++ b
  else a ++ "/" ++ b

/-- os.path.basename: everything after the last '/'. -/
def pyBasename (p : String) : String :=
  match lastSlashIdx p.data with
  | Option.none => p
  | some k => String.mk (p.data.drop (k + 1))

/-- os.path.dirname: everything up to and including the last '/', with
trailing slashes stripped unless the head consists only of slashes. -/
def pyDirname (p : String) : String :=
  match lastSlashIdx p.data with
  | Option.none => ""
  | some k =>
    let head := p.data.take (k + 1)
    if head.all (fun c => c = '/') then String.mk head
    else String.mk ((head.reverse.dropWhile (fun c => c = '/')).reverse)

/-! ## Filesystem diagnostic helpers -/

/-- _SIMILARITY_CUTOFF -/
def SIMILARITY_CUTOFF : Int := 75

/-- int(q * 100) for an exact rational q: 100 times the numerator, divided by
the denominator with truncation toward zero (Int.tdiv), which is exactly
Python's int() truncation of the product q * 100. -/
def intTimes100 (q : ℚ) : Int :=
  (100 * q.num).tdiv (q.den : Int)

/-- Python sorted(l, key=score): a stable ascending sort by the key.  A stable
sort's output is uniquely determined by that contract, so the structurally
recursive insertion sort realizes sorted() exactly. -/
def pySortedByScore (l : List (String × Int)) : List (String × Int) :=
  List.insertionSort (fun a b => a.2 ≤ b.2) l

/-- _find_similar_files(path): resolve path against the working directory,
score every entry of the parent directory against the base filename with
the (opaque, parameter-supplied) SequenceMatcher ratio scaled by 100 and
truncated, sort ascending by score, and keep scores strictly above the
cutoff.  listdir models os.listdir of the parent directory. -/
def find_similar_files (ratio : String → String → ℚ) (cwd : String)
    (listdir : String → List String) (path : String) : List (String × Int) :=
  let path := if pyIsAbs path then path else pyJoin cwd path
  let base := pyDirname path
  let file := pyBasename path
  let scores := (listdir base).map fun f => (pyJoin base f, intTimes100 (ratio f file))
  (pySortedByScore scores).filter fun p => SIMILARITY_CUTOFF < p.2

/-! ## Rule framework -/

/-- Linux errno constants used by the rules. -/
def ENOENT : Int := 2

def EPERM : Int := 1

def EACCES : Int := 13

/-- errno.errorcode: numeric errno to symbolic name (the entries this program
can look up); a missing key raises KeyError at the lookup site. -/
def errorcode (n : Int) : Option String :=
  if n = EPERM then some "EPERM"
  else if n = ENOENT then some "ENOENT"
  else if n = EACCES then some "EACCES"
  else Option.none

/-- The two concrete Alleviation subclasses. -/
inductive Rule where
  | enoent
  | eperm
deriving DecidableEq, Repr

/-- The errnos property of each ErrnoAlleviation subclass. -/
def Rule.errnos : Rule → List Int
  | .enoent => [ENOENT]
  | .eperm => [EPERM, EACCES]

/-- ErrnoAlleviation.match: hasattr(exception, 'errno') and
exception.errno in self.errnos. -/
def matchRule (r : Rule) (e : PyExc) : Bool :=
  match e.errno with
  | some n => decide (n ∈ r.errnos)
  | Option.none => false

/-- The module-level __alleviations rule list, in source order. -/
def alleviations : List Rule :=
  [.enoent, .eperm]

/-- find_alleviation(exc): the first rule in the list whose match succeeds
(the loop falls through to an implicit None when none matches). -/
def find_alleviation (e : PyExc) : Option Rule :=
  alleviations.find? fun r => matchRule r e

/-- Host-runtime state the rules consume: working directory, traceback-derived
call label (4.1/4.2 of the spec, sys.exc_info plus get_function_name),
directory listings, the opaque similarity ratio, and stat results
(S_IMODE(os.stat(p).st_mode), Option.none when os.stat raises). -/
structure Env where
  cwd : String
  funcName : String
  listdir : String → List String
  ratio : String → String → ℚ
  stat : String → Option Nat

/-- Console output: print(type(exc)) of the fallback path, or
print(R.render()) of a rule. -/
inductive Printed where
  | typeRepr (typeName : String)
  | rendered (r : Rendered)
deriving DecidableEq, Repr

/-- The eight items Enoent.run appends with add_item, in source order. -/
def enoentItems (fname filename similars : String) (errno_ : Int) (code : String) :
    List Item :=
  [.header "Program error",
   .description ("File " ++ filename ++ " could not be found\n\nErrno:  " ++
     toString errno_ ++ " (" ++ code ++ ")\nAction: " ++ fname),
   .separator 0,
   .header "Symptoms",
   .symptom "File does not exist" filename,
   .separator 0,
   .header "Solutions",
   .solution "Check out files with similar name" similars]

/-- Enoent.run: gather filename, similar files, call label; absolutize the
path; append the eight report items in source order; render and print.
The similars solution body concatenates, for the first three similar files,
six spaces, the path, ' similarity: ', the decimal score and '%' with a
newline ('similar[:3]'; the 'if similar:' guard is the identity on the
empty list). -/
def Enoent_run (env : Env) (exc : PyExc) (output : Output) :
    Except PyErr (AlleviateContext × List Printed) := do
  let filename0 ← pyAttr exc.filename
  let similar := find_similar_files env.ratio env.cwd env.listdir filename0
  let similars := String.join ((similar.take 3).map fun sf =>
    "      " ++ sf.1 ++ " similarity: " ++ toString sf.2 ++ "%\n")
  let fname := env.funcName
  let filename := if pyIsAbs filename0 then filename0 else pyJoin env.cwd filename0
  let errno_ ← pyAttr exc.errno
  let code ← pyAttr (errorcode errno_)
  let ctx : AlleviateContext := ⟨enoentItems fname filename similars errno_ code, output, exc⟩
  let r ← Renderer.render ctx
  .ok (ctx, [.rendered r])

/-- The number of parameters of _get_mode_description(mode, stat, path). -/
def get_mode_description_nparams : Nat := 3

/-- The call _get_mode_description(mode, filename) on the success path of
Eperm.run supplies 2 positional arguments to the 3-parameter function
_get_mode_description, so CPython raises TypeError before the body runs. -/
def get_mode_description_call2 (_mode : Nat) (_path : String) : Except PyErr PyVal :=
  if 2 = get_mode_description_nparams then .ok .none else .error .typeError

/-- Eperm.run: read the filename, resolve the call label, absolutize, then
try os.stat.  On stat failure, the context is reduced to a single description
and run returns without rendering or printing anything.  On stat success the
source calls _get_mode_description with two arguments (see
get_mode_description_call2); were that call to return, run would read
exception.errno and fall off the end, again printing nothing. -/
def Eperm_run (env : Env) (exc : PyExc) (output : Output) :
    Except PyErr (AlleviateContext × List Printed) := do
  let filename0 ← pyAttr exc.filename
  let _fname := env.funcName
  let filename := if pyIsAbs filename0 then filename0 else pyJoin env.cwd filename0
  match env.stat filename with
  | Option.none =>
    .ok (⟨[.description ("Unable to stat " ++ filename)], output, exc⟩, [])
  | some mode => do
    let _ ← get_mode_description_call2 mode filename
    let _errno ← pyAttr exc.errno
    .ok (⟨[], output, exc⟩, [])

/-- Alleviation.run dispatch. -/
def Rule.run (r : Rule) (env : Env) (exc : PyExc) (output : Output) :
    Except PyErr (AlleviateContext × List Printed) :=
  match r with
  | .enoent => Enoent_run env exc output
  | .eperm => Eperm_run env exc output

/-- exception(exc, output=Output.Detailed): look up a matching rule; print
the error's runtime type and stop when none matches, otherwise invoke the
rule's run.  The observable result is the list of printed values, or the
Python exception the run raised. -/
def exception (env : Env) (exc : PyExc) (output : Output) : Except PyErr (List Printed) :=
  match find_alleviation exc with
  | Option.none => .ok [.typeRepr exc.typeName]
  | some a => (a.run env exc output).map fun pr => pr.2

/-! ## Call-site recovery engine (alleviate.disas, CPython 2.7 bytecode) -/

/-- dis.HAVE_ARGUMENT -/
def HAVE_ARGUMENT : Nat := 90

/-- opcode.opmap['LOAD_CONST'] -/
def opLOAD_CONST : Nat := 100

/-- opcode.opmap['LOAD_ATTR'] -/
def opLOAD_ATTR : Nat := 106

/-- opcode.opmap['LOAD_GLOBAL'] -/
def opLOAD_GLOBAL : Nat := 116

/-- opcode.opmap['CALL_FUNCTION'] -/
def opCALL_FUNCTION : Nat := 131

/-- dis.EXTENDED_ARG -/
def opEXTENDED_ARG : Nat := 145

/-- dis.hasconst -/
def hasconst : List Nat := [100]

/-- dis.hasname (Python 2.7) -/
def hasname : List Nat := [90, 91, 95, 96, 97, 98, 101, 106, 108, 109, 116]

/-- dis.hasjrel (Python 2.7) -/
def hasjrel : List Nat := [93, 110, 120, 121, 122, 143]

/-- dis.haslocal (Python 2.7) -/
def haslocal : List Nat := [124, 125, 126]

/-- dis.hascompare (Python 2.7) -/
def hascompare : List Nat := [107]

/-- dis.hasfree (Python 2.7) -/
def hasfree : List Nat := [135, 136, 137]

/-- dis.cmp_op (Python 2.7) -/
def cmp_op : List String :=
  ["<", "<=", "==", "!=", ">", ">=", "in", "not in", "is", "is not",
   "exception match", "BAD"]

/-- The Opcode namedtuple: (op, stack, oparg, imm).  imm is a Python value;
its default is None, which in Python is the same value as an unresolved
immediate. -/
structure Opcode where
  op : Nat
  stack : Nat
  oparg : Nat
  imm : PyVal
deriving DecidableEq, Repr

/-- The parts of a CPython 2.7 code object the disassembler reads:
co_code (as bytes), co_consts, co_names, co_varnames, co_cellvars,
co_freevars. -/
structure CodeObject where
  co_code : List Nat
  co_consts : List PyVal
  co_names : List String
  co_varnames : List String
  co_cellvars : List String
  co_freevars : List String

/-- Immediate resolution of disassemble's elif chain, in source order:
constants, names, relative jumps (resolved against the index just past the
operand bytes), local variable names, comparison operators, closure/free
names; anything else leaves imm = None.  A metadata-table index that is out
of range raises IndexError exactly as the Python list indexing does. -/
def resolveImm (co : CodeObject) (op oparg inext : Nat) : Except PyErr PyVal :=
  if op ∈ hasconst then pyListGet co.co_consts oparg
  else if op ∈ hasname then (pyListGet co.co_names oparg).map .str
  else if op ∈ hasjrel then .ok (.int ((inext : Int) + oparg))
  else if op ∈ haslocal then (pyListGet co.co_varnames oparg).map .str
  else if op ∈ hascompare then (pyListGet cmp_op oparg).map .str
  else if op ∈ hasfree then (pyListGet (co.co_cellvars ++ co.co_freevars) oparg).map .str
  else .ok .none

/-- The while loop of disassemble.  i is the byte offset of the instruction
being decoded, ext the pending extended-argument carry, lastOparg the value
the Python local oparg held from the previous argument-bearing instruction
(reading it before any assignment raises NameError), count the number of
instructions decoded so far and tos the tos value recorded so far.
An argument-bearing opcode with fewer than two operand bytes left raises
IndexError (ord(code[i]) out of range). -/
def disasLoop (co : CodeObject) (lasti : Nat) :
    List Nat → Nat → Nat → Option Nat → Nat → Nat → Except PyErr (Nat × List Opcode)
  | [], _, _, _, _, tos => .ok (tos, [])
  | c :: rest, i, ext, lastOparg, count, tos =>
    let tos' := if i = lasti then count else tos
    if HAVE_ARGUMENT ≤ c then
      match rest with
      | b1 :: b2 :: rest2 =>
        let oparg := b1 + b2 * 256 + ext
        let ext' := if c = opEXTENDED_ARG then oparg * 65536 else 0
        let stack := oparg % 256 + oparg / 256 % 256 * 2
        match resolveImm co c oparg (i + 3) with
        | .error e => .error e
        | .ok imm =>
          match disasLoop co lasti rest2 (i + 3) ext' (some oparg) (count + 1) tos' with
          | .error e => .error e
          | .ok (t, l) => .ok (t, ⟨c, stack, oparg, imm⟩ :: l)
      | _ => .error .indexError
    else
      match lastOparg with
      | Option.none => .error .nameError
      | some v =>
        match disasLoop co lasti rest (i + 1) ext lastOparg (count + 1) tos' with
        | .error e => .error e
        | .ok (t, l) => .ok (t, ⟨c, 0, v, .none⟩ :: l)

/-- disassemble(co, lasti): decode the instruction stream from the start and
record the index (tos) of the instruction whose byte offset equals lasti. -/
def disassemble (co : CodeObject) (lasti : Nat) : Except PyErr (Nat × List Opcode) :=
  disasLoop co lasti co.co_code 0 0 Option.none 0 0

/-- Python slice l[start::-1]: from the (possibly negative, wrapped and
clamped) start index down to the beginning of the list. -/
def pySliceRevFrom {α : Type} (l : List α) (start : Int) : List α :=
  let n : Int := l.length
  let s := if start < 0 then start + n else start
  if s < 0 then []
  else (l.take ((min s (n - 1)).toNat + 1)).reverse

/-- Python slice l[a:b] with step 1: negative indices wrap, then both bounds
clamp to [0, len(l)]. -/
def pySlice {α : Type} (l : List α) (a b : Int) : List α :=
  let n : Int := l.length
  let a' := if a < 0 then a + n else a
  let b' := if b < 0 then b + n else b
  (l.take (max 0 (min b' n)).toNat).drop (max 0 (min a' n)).toNat

/-- The loop body of _consume_until_load_global over the reversed slice:
collect LOAD_ATTR immediates, and stop after appending the first LOAD_GLOBAL
immediate. -/
def consumeLoop : List Opcode → List PyVal
  | [] => []
  | insn :: rest =>
    if insn.op = opLOAD_ATTR then insn.imm :: consumeLoop rest
    else if insn.op = opLOAD_GLOBAL then [insn.imm]
    else consumeLoop rest

/-- _consume_until_load_global(insns, start): iterate insns[start::-1] and
return the collected immediates reversed (tuple(stack[::-1])). -/
def consume_until_load_global (insns : List Opcode) (start : Int) : List PyVal :=
  (consumeLoop (pySliceRevFrom insns start)).reverse

/-- _disas_call(code, lasti): disassemble, check that the instruction at tos
is CALL_FUNCTION (returning no result otherwise), and return the reversed
operand window instructions[tos - stack - 1 : tos] together with the dotted
name collected backward from the window start. -/
def disas_call (co : CodeObject) (lasti : Nat) :
    Except PyErr (Option (List Opcode × List PyVal)) := do
  let (tos, instructions) ← disassemble co lasti
  let tos_insn ← pyListGet instructions tos
  if tos_insn.op ≠ opCALL_FUNCTION then
    return Option.none
  let start : Int := (tos : Int) - (tos_insn.stack : Int) - 1
  let function_name := consume_until_load_global instructions start
  return some ((pySlice instructions start (tos : Int)).reverse, function_name)

/-- _oparg_to_args_kwargs(oparg): (oparg & 255, ((oparg >> 8) & 255) * 2). -/
def oparg_to_args_kwargs (oparg : Nat) : Nat × Nat :=
  (oparg % 256, oparg / 256 % 256 * 2)

/-- _pairwise: consecutive pairs; a trailing odd element is dropped (the
StopIteration from the inner next() ends the Python 2 generator). -/
def pairwise {α : Type} : List α → List (α × α)
  | a :: b :: rest => (a, b) :: pairwise rest
  | _ => []

/-- The frame state _handle_opcode and _get_function_from_name read:
f_globals and f_locals as partial maps, whether '__builtins__' is present in
f_globals, dir(__builtins__) as a name list, eval of a builtin name, and
getattr on runtime objects (Option.none models AttributeError). -/
structure Frame where
  f_globals : String → Option PyVal
  f_locals : String → Option PyVal
  hasBuiltins : Bool
  builtinNames : List String
  builtinEval : String → PyVal
  getattrFn : PyVal → String → Option PyVal

/-- _handle_opcode(opc, frame): a LOAD_GLOBAL immediate is looked up in
f_globals, then among the built-ins (eval), else None; every other opcode's
already-resolved immediate is returned directly.  A non-string immediate is
not a key of f_globals and not in dir(__builtins__), hence None. -/
def handle_opcode (opc : Opcode) (frame : Frame) : PyVal :=
  if opc.op = opLOAD_GLOBAL then
    match opc.imm with
    | .str s =>
      match frame.f_globals s with
      | some v => v
      | Option.none =>
        if frame.hasBuiltins && s ∈ frame.builtinNames then frame.builtinEval s
        else .none
    | _ => .none
  else opc.imm

/-- G = frame.f_globals.copy(); G.update(frame.f_locals): locals shadow
globals. -/
def frameG (frame : Frame) (s : String) : Option PyVal :=
  match frame.f_locals s with
  | some v => some v
  | Option.none => frame.f_globals s

/-- _get_function_from_name(name, frame).  A single-segment name is resolved
among the built-ins (eval) or in G (KeyError when absent).  A multi-segment
name resolves its first segment in G; the source's loop over the middle
segments applies getattr to the dict G itself (a slip), which raises
AttributeError for any module-path segment; the final segment is looked up
with getattr on the first segment's value.  Dict lookup with a non-string
name element raises KeyError, getattr with one raises TypeError, and an
empty name tuple raises IndexError at name[0]. -/
def get_function_from_name (name : List PyVal) (frame : Frame) : Except PyErr PyVal :=
  if name.length = 1 then
    match name with
    | [.str s] =>
      if frame.hasBuiltins && s ∈ frame.builtinNames then .ok (frame.builtinEval s)
      else
        match frameG frame s with
        | some v => .ok v
        | Option.none => .error .keyError
    | [_] => .error .keyError
    | _ => .error .indexError
  else
    match name with
    | [] => .error .indexError
    | v0 :: _ =>
      match v0 with
      | .str s0 =>
        match frameG frame s0 with
        | Option.none => .error .keyError
        | some cG =>
          if (name.dropLast.drop 1).isEmpty then
            match name.getLast? with
            | some (.str fs) =>
              match frame.getattrFn cG fs with
              | some v => .ok v
              | Option.none => .error .attributeError
            | some _ => .error .typeError
            | Option.none => .error .indexError
          else .error .attributeError
      | _ => .error .keyError

/-- '.'.join(name): joining non-string elements raises TypeError. -/
def pyJoinDot (name : List PyVal) : Except PyErr String :=
  match name.mapM (fun v => match v with | PyVal.str s => some s | _ => Option.none) with
  | some ss => .ok (String.intercalate "." ss)
  | Option.none => .error .typeError

/-- The 4-tuple get_function_and_args returns. -/
structure CallInfo where
  name : String
  func : PyVal
  args : List PyVal
  kwargs : List (PyVal × PyVal)
deriving DecidableEq, Repr

/-- dict(pairs): later bindings of an equal key override earlier ones. -/
def pyDictOf (ps : List (PyVal × PyVal)) : List (PyVal × PyVal) :=
  ps.foldl (fun acc p => (acc.filter fun q => q.1 ≠ p.1) ++ [p]) []

/-- get_function_and_args(code, lasti, frame): run _disas_call; no result (or
an empty window) yields no result.  Otherwise the first window instruction is
taken as the call, its oparg split into counts, the keyword region
instructions[1:off_kwargs] paired as value/key and resolved, the positional
region instructions[off_kwargs:off_args] resolved, and the dotted name,
resolved callable, reversed positional list and keyword dict returned. -/
def get_function_and_args (co : CodeObject) (lasti : Nat) (frame : Frame) :
    Except PyErr (Option CallInfo) := do
  let r ← disas_call co lasti
  match r with
  | Option.none => return Option.none
  | some (instructions, name) =>
    if instructions.isEmpty then
      return Option.none
    let call ← pyListGet instructions 0
    let (n_args, n_kwargs) := oparg_to_args_kwargs call.oparg
    let off_kwargs := n_kwargs
    let off_args := off_kwargs + n_args
    let kwargs := (pairwise (pySlice instructions 1 (off_kwargs : Int))).map fun vk =>
      (handle_opcode vk.2 frame, handle_opcode vk.1 frame)
    let args := (pySlice instructions (off_kwargs : Int) (off_args : Int)).map fun x =>
      handle_opcode x frame
    let dotted ← pyJoinDot name
    let func ← get_function_from_name name frame
    return some ⟨dotted, func, args.reverse, pyDictOf kwargs⟩

/-! ## Supporting definitions and lemmas for the claim theorems -/

/-- The (op, operand) sequence of the argument-bearing instructions as the
specification words it (claim C9): each operand is the first operand byte plus
256 times the second plus the pending extended-argument carry; an
extended-argument instruction sets the carry to its own decoded operand times
65536; the carry is consumed by the next argument-bearing instruction and is
zero afterwards.  This is the spec-side decoder to be compared with
disassemble. -/
def specArgOpargs : List Nat → Nat → List (Nat × Nat)
  | [], _ => []
  | c :: rest, carry =>
    if HAVE_ARGUMENT ≤ c then
      match rest with
      | b1 :: b2 :: rest2 =>
        let operand := b1 + 256 * b2 + carry
        (c, operand) :: specArgOpargs rest2 (if c = opEXTENDED_ARG then operand * 65536 else 0)
      | _ => []
    else specArgOpargs rest carry

/-- The (op, oparg) pairs of the argument-bearing instructions of a decoded
instruction list. -/
def argOpargs (l : List Opcode) : List (Nat × Nat) :=
  (l.filter fun o => HAVE_ARGUMENT ≤ o.op).map fun o => (o.op, o.oparg)

theorem argOpargs_cons (o : Opcode) (l : List Opcode) :
    argOpargs (o :: l) =
      if HAVE_ARGUMENT ≤ o.op then (o.op, o.oparg) :: argOpargs l else argOpargs l := by
  simp only [argOpargs, List.filter_cons]
  by_cases h : HAVE_ARGUMENT ≤ o.op <;> simp [h]

theorem intTimes100_eq_floor (q : ℚ) (h : 0 ≤ q) : intTimes100 q = ⌊q * 100⌋ := by
  have hnum : 0 ≤ q.num := Rat.num_nonneg.mpr h
  have hq : q * 100 = ((100 * q.num : Int) : ℚ) / ((q.den : ℕ) : ℚ) := by
    conv_lhs => rw [← Rat.num_div_den q]
    push_cast
    ring
  rw [intTimes100, hq, Rat.floor_intCast_div_natCast,
    Int.tdiv_eq_ediv (by positivity) (by positivity)]

theorem intTimes100_nonneg (q : ℚ) (h : 0 ≤ q) : 0 ≤ intTimes100 q := by
  rw [intTimes100_eq_floor q h]
  exact Int.floor_nonneg.mpr (by positivity)

theorem intTimes100_le_100 (q : ℚ) (h0 : 0 ≤ q) (h1 : q ≤ 1) : intTimes100 q ≤ 100 := by
  rw [intTimes100_eq_floor q h0]
  have : q * 100 ≤ (100 : ℚ) := by nlinarith
  calc ⌊q * 100⌋ ≤ ⌊(100 : ℚ)⌋ := Int.floor_le_floor this
    _ = 100 := by norm_num

theorem intTimes100_lt_100 (q : ℚ) (h0 : 0 ≤ q) (h1 : q < 1) : intTimes100 q < 100 := by
  rw [intTimes100_eq_floor q h0]
  refine Int.floor_lt.mpr ?_
  push_cast
  nlinarith

theorem intTimes100_one : intTimes100 1 = 100 := by
  decide

instance : IsTotal (String × Int) fun p q => p.2 ≤ q.2 :=
  ⟨fun a b => le_total a.2 b.2⟩

instance : IsTrans (String × Int) fun p q => p.2 ≤ q.2 :=
  ⟨fun _ _ _ h1 h2 => le_trans h1 h2⟩

/-- In a list whose elements are pairwise related left to right, every member
is the last element or related to it. -/
theorem pairwise_rel_getLast {α : Type} {r : α → α → Prop} :
    ∀ {l : List α}, l.Pairwise r → ∀ {x : α}, x ∈ l → ∀ (h : l ≠ []),
      x = l.getLast h ∨ r x (l.getLast h) := by
  intro l
  induction l with
  | nil => intro _ x hx; exact absurd hx (List.not_mem_nil x)
  | cons a t ih =>
    intro hp x hx hne
    cases t with
    | nil =>
      simp only [List.mem_singleton] at hx
      subst hx
      exact Or.inl rfl
    | cons b t2 =>
      rw [List.getLast_cons (by simp)]
      rcases List.mem_cons.mp hx with rfl | hx2
      · right
        exact (List.pairwise_cons.mp hp).1 _ (List.getLast_mem _)
      · exact ih (List.pairwise_cons.mp hp).2 hx2 (by simp)

theorem filter_symptom_map_json (items : List Item) :
    ((items.filter Item.isSymptom).map fun it =>
      match it with
      | Item.symptom n v => ItemRender.render_json_symptom n v
      | _ => ("", "")) =
    items.filterMap fun it =>
      match it with
      | Item.symptom n v => some (n, v)
      | _ => Option.none := by
  induction items with
  | nil => rfl
  | cons a t ih =>
    simp only [ItemRender.render_json_symptom] at ih ⊢
    cases a <;> simp [List.filter_cons, List.filterMap_cons, Item.isSymptom, ih]

theorem filter_solution_map_json (items : List Item) :
    ((items.filter Item.isSolution).map fun it =>
      match it with
      | Item.solution d s => pyStrip (ItemRender.render_json_solution d s)
      | _ => "") =
    items.filterMap fun it =>
      match it with
      | Item.solution _ s => some (pyStrip s)
      | _ => Option.none := by
  induction items with
  | nil => rfl
  | cons a t ih =>
    simp only [ItemRender.render_json_solution] at ih ⊢
    cases a <;> simp [List.filter_cons, List.filterMap_cons, Item.isSolution, ih]

theorem filter_description_map_text (items : List Item) :
    ((items.filter Item.isDescription).map Item.textOf) =
    items.filterMap fun it =>
      match it with
      | Item.description t => some t
      | _ => Option.none := by
  induction items with
  | nil => rfl
  | cons a t ih =>
    cases a <;>
      simp [List.filter_cons, List.filterMap_cons, Item.isDescription, Item.textOf, ih]

theorem disasLoop_argOpargs (co : CodeObject) (lasti : Nat) :
    ∀ (n : Nat) (bytes : List Nat), bytes.length ≤ n →
      ∀ (i ext : Nat) (lastOparg : Option Nat) (count tos t : Nat) (l : List Opcode),
        disasLoop co lasti bytes i ext lastOparg count tos = Except.ok (t, l) →
        argOpargs l = specArgOpargs bytes ext := by
  intro n
  induction n with
  | zero =>
    intro bytes hb i ext lastOparg count tos t l h
    obtain rfl : bytes = [] := List.eq_nil_of_length_eq_zero (Nat.le_zero.mp hb)
    simp only [disasLoop, Except.ok.injEq, Prod.mk.injEq] at h
    obtain ⟨rfl, rfl⟩ := h
    rfl
  | succ n ih =>
    intro bytes hb i ext lastOparg count tos t l h
    cases bytes with
    | nil =>
      simp only [disasLoop, Except.ok.injEq, Prod.mk.injEq] at h
      obtain ⟨rfl, rfl⟩ := h
      rfl
    | cons c rest =>
      rw [disasLoop.eq_def] at h
      simp only [] at h
      by_cases hc : HAVE_ARGUMENT ≤ c
      · rw [if_pos hc] at h
        cases rest with
        | nil => exact absurd h (by simp)
        | cons b1 rest1 =>
          cases rest1 with
          | nil => exact absurd h (by simp)
          | cons b2 rest2 =>
            dsimp only at h
            cases hresv : resolveImm co c (b1 + b2 * 256 + ext) (i + 3) with
            | error e => rw [hresv] at h; exact absurd h (by simp)
            | ok imm =>
              rw [hresv] at h
              cases hrec : disasLoop co lasti rest2 (i + 3)
                  (if c = opEXTENDED_ARG then (b1 + b2 * 256 + ext) * 65536 else 0)
                  (some (b1 + b2 * 256 + ext)) (count + 1)
                  (if i = lasti then count else tos) with
              | error e => rw [hrec] at h; exact absurd h (by simp)
              | ok p =>
                obtain ⟨t2, l2⟩ := p
                rw [hrec] at h
                simp only [Except.ok.injEq, Prod.mk.injEq] at h
                obtain ⟨rfl, rfl⟩ := h
                have hlen : rest2.length ≤ n := by
                  simp only [List.length_cons] at hb
                  omega
                have := ih rest2 hlen (i + 3)
                  (if c = opEXTENDED_ARG then (b1 + b2 * 256 + ext) * 65536 else 0)
                  (some (b1 + b2 * 256 + ext)) (count + 1)
                  (if i = lasti then count else tos) t2 l2 hrec
                rw [argOpargs_cons]
                simp only [hc, if_pos]
                rw [specArgOpargs]
                rw [if_pos hc]
                rw [this]
                have harith : b1 + b2 * 256 + ext = b1 + 256 * b2 + ext := by ring
                rw [harith]
      · rw [if_neg hc] at h
        cases lastOparg with
        | none => exact absurd h (by simp)
        | some v =>
          cases hrec : disasLoop co lasti rest (i + 1) ext (some v) (count + 1)
              (if i = lasti then count else tos) with
          | error e => rw [hrec] at h; exact absurd h (by simp)
          | ok p =>
            obtain ⟨t2, l2⟩ := p
            rw [hrec] at h
            simp only [Except.ok.injEq, Prod.mk.injEq] at h
            obtain ⟨rfl, rfl⟩ := h
            have hlen : rest.length ≤ n := by
              simp only [List.length_cons] at hb
              omega
            have := ih rest hlen (i + 1) ext (some v) (count + 1)
              (if i = lasti then count else tos) t2 l2 hrec
            have hspec : specArgOpargs (c :: rest) ext = specArgOpargs rest ext := by
              rw [specArgOpargs.eq_def]
              dsimp only
              rw [if_neg hc]
            rw [argOpargs_cons, if_neg hc, hspec]
            exact this

/-! ## Claim theorems -/

/-- Concrete inputs for claims C1, C2, C5, C10 and their witnesses. -/
def ratioW : String → String → ℚ :=
  fun a b => if a = b then 1 else 0

def listdirW : String → List String :=
  fun d => if d = "/d" then ["f", "g"] else []

def envC1 : Env :=
  { cwd := "/w", funcName := "open()", listdir := fun _ => [],
    ratio := fun _ _ => 0, stat := fun p => if p = "/tmp/f" then some 420 else Option.none }

def excC1 : PyExc :=
  { typeName := "OSError", message := "permission denied",
    errno := some EPERM, filename := some "/tmp/f" }

/-- Claim C1 (code bug): for an error carrying errno EPERM with a filename
whose target can be stat'd, find_alleviation selects Eperm and exception()
invokes Eperm.run, but instead of completing without propagating an
exception, the run raises TypeError out of exception(): the source calls the
3-parameter _get_mode_description with only two arguments
(_get_mode_description(mode, filename), src/alleviate/__init__.py line 328). -/
theorem C1_exception_propagates_TypeError :
    matchRule Rule.eperm excC1 = true ∧
    find_alleviation excC1 = some Rule.eperm ∧
    envC1.stat "/tmp/f" = some 420 ∧
    exception envC1 excC1 Output.Detailed = Except.error PyErr.typeError :=
  ⟨rfl, rfl, rfl, rfl⟩

/-- Claim C2: for an error with errno ENOENT and a filename attribute,
Enoent.run builds exactly the eight report items of the claim in order --
header "Program error"; a description holding the absolute path, the numeric
errno with its symbolic name and the resolved call label; a separator; header
"Symptoms"; the "File does not exist" symptom valued with the absolute path;
a separator; header "Solutions"; and the "Check out files with similar name"
solution whose body lists at most the first three similar-file results, each
on its own line indented six spaces as "<path> similarity: <score>%" -- and
then renders the report in the requested format and prints it. -/
theorem C2_enoent_report (env : Env) (exc : PyExc) (output : Output) (fn : String)
    (hfile : exc.filename = some fn) (herr : exc.errno = some ENOENT) :
    ∃ (ctx : AlleviateContext) (r : Rendered),
      Enoent_run env exc output = Except.ok (ctx, [Printed.rendered r]) ∧
      Renderer.render ctx = Except.ok r ∧
      ctx.format = output ∧
      ctx.exception = exc ∧
      ctx.items = [
        Item.header "Program error",
        Item.description ("File " ++ (if pyIsAbs fn then fn else pyJoin env.cwd fn) ++
          " could not be found\n\nErrno:  " ++ toString ENOENT ++ " (" ++ "ENOENT" ++
          ")\nAction: " ++ env.funcName),
        Item.separator 0,
        Item.header "Symptoms",
        Item.symptom "File does not exist" (if pyIsAbs fn then fn else pyJoin env.cwd fn),
        Item.separator 0,
        Item.header "Solutions",
        Item.solution "Check out files with similar name"
          (String.join (((find_similar_files env.ratio env.cwd env.listdir fn).take 3).map
            fun sf => "      " ++ sf.1 ++ " similarity: " ++ toString sf.2 ++ "%\n"))] := by
  obtain ⟨tn, msg, eo, fo⟩ := exc
  dsimp only at hfile herr
  subst hfile
  subst herr
  let ctxE : AlleviateContext :=
    ⟨enoentItems env.funcName (if pyIsAbs fn then fn else pyJoin env.cwd fn)
      (String.join (((find_similar_files env.ratio env.cwd env.listdir fn).take 3).map
        fun sf => "      " ++ sf.1 ++ " similarity: " ++ toString sf.2 ++ "%\n"))
      ENOENT "ENOENT", output, ⟨tn, msg, some ENOENT, some fn⟩⟩
  have hrun : Enoent_run env ⟨tn, msg, some ENOENT, some fn⟩ output =
      (Renderer.render ctxE).bind
        (fun rr => Except.ok (ctxE, [Printed.rendered rr])) := rfl
  obtain ⟨r, hr⟩ : ∃ r, Renderer.render ctxE = Except.ok r := by
    cases output <;> exact ⟨_, rfl⟩
  refine ⟨ctxE, r, ?_, hr, rfl, rfl, rfl⟩
  rw [hrun, hr]
  rfl

/-- Claim C3: find_alleviation consults the fixed ordered rule list
[Enoent, Eperm] and returns the first rule whose match succeeds, or no result
when none matches; ErrnoAlleviation's match succeeds exactly when the error
has an errno attribute whose value lies in the rule's errno list (ENOENT for
Enoent; EPERM or EACCES for Eperm); in particular an error without an errno
attribute yields no result. -/
theorem C3_find_alleviation_first_match (e : PyExc) :
    (∀ r : Rule, matchRule r e = true ↔ ∃ n, e.errno = some n ∧ n ∈ r.errnos) ∧
    Rule.errnos Rule.enoent = [ENOENT] ∧
    Rule.errnos Rule.eperm = [EPERM, EACCES] ∧
    find_alleviation e = (if matchRule Rule.enoent e then some Rule.enoent
      else if matchRule Rule.eperm e then some Rule.eperm else Option.none) ∧
    (e.errno = Option.none → find_alleviation e = Option.none) := by
  refine ⟨?_, rfl, rfl, ?_, ?_⟩
  · intro r
    cases he : e.errno with
    | none => simp [matchRule, he]
    | some n => simp [matchRule, he]
  · by_cases h1 : matchRule Rule.enoent e <;>
      by_cases h2 : matchRule Rule.eperm e <;>
        simp [find_alleviation, alleviations, List.find?, h1, h2]
  · intro he
    simp [find_alleviation, alleviations, List.find?, matchRule, he]

/-- The concrete error object of the C3 witness: no errno attribute. -/
def excC3w : PyExc :=
  { typeName := "ValueError", message := "m" }

theorem C3_witness :
    (∀ r : Rule, matchRule r excC3w = true ↔ ∃ n, excC3w.errno = some n ∧ n ∈ r.errnos) ∧
    Rule.errnos Rule.enoent = [ENOENT] ∧
    Rule.errnos Rule.eperm = [EPERM, EACCES] ∧
    find_alleviation excC3w = (if matchRule Rule.enoent excC3w then some Rule.enoent
      else if matchRule Rule.eperm excC3w then some Rule.eperm else Option.none) ∧
    (excC3w.errno = Option.none → find_alleviation excC3w = Option.none) :=
  C3_find_alleviation_first_match excC3w

/-- Claim C4: for a context in json format with at least one Description item,
render() produces the json.dumps call with 3-space indentation on the document
whose fields are exactly: the first Description's text stripped, the error's
runtime type name, the error's message, the (name, value) pair of every
Symptom item in append order, and the stripped solution body of every
Solution item in append order. -/
theorem C4_render_json_fields (ctx : AlleviateContext) (t : String) (ts : List String)
    (hfmt : ctx.format = Output.JSON)
    (hd : (ctx.items.filterMap fun it =>
        match it with
        | Item.description txt => some txt
        | _ => Option.none) = t :: ts) :
    Renderer.render ctx = Except.ok (Rendered.jsonDump
      { description := pyStrip t,
        exception := ctx.exception.typeName,
        message := ctx.exception.message,
        symptoms := ctx.items.filterMap fun it =>
          match it with
          | Item.symptom n v => some (n, v)
          | _ => Option.none,
        solutions := ctx.items.filterMap fun it =>
          match it with
          | Item.solution _ s => some (pyStrip s)
          | _ => Option.none } 3) := by
  have hdesc : (ctx.items.filter Item.isDescription).map Item.textOf = t :: ts := by
    rw [filter_description_map_text]
    exact hd
  obtain ⟨d, rest, hfd, htd⟩ : ∃ d rest,
      ctx.items.filter Item.isDescription = d :: rest ∧ Item.textOf d = t := by
    cases hfd : ctx.items.filter Item.isDescription with
    | nil => rw [hfd] at hdesc; simp at hdesc
    | cons d rest =>
      rw [hfd] at hdesc
      simp only [List.map_cons, List.cons.injEq] at hdesc
      exact ⟨d, rest, rfl, hdesc.1⟩
  simp only [Renderer.render, hfmt]
  simp only [render_json, hfd]
  rw [filter_symptom_map_json, filter_solution_map_json, htd]
  rfl

/-- The concrete context of the C4 witness. -/
def ctxC4w : AlleviateContext :=
  ⟨[Item.description " D ", Item.symptom "S" "V", Item.solution "Sol" " B "],
   Output.JSON, ⟨"OSError", "msg", some 2, Option.none⟩⟩

theorem C4_witness :
    ctxC4w.format = Output.JSON ∧
    (ctxC4w.items.filterMap fun it =>
        match it with
        | Item.description txt => some txt
        | _ => Option.none) = [" D "] ∧
    Renderer.render ctxC4w = Except.ok (Rendered.jsonDump
      { description := "D", exception := "OSError", message := "msg",
        symptoms := [("S", "V")], solutions := ["B"] } 3) :=
  ⟨rfl, rfl, C4_render_json_fields ctxC4w " D " [] rfl rfl⟩

/-- Claim C5: find_similar_files resolves the path against the working
directory, scores every entry of the parent directory against the target's
base filename as the similarity ratio times 100 truncated to an integer
(hence between 0 and 100 for ratios in the unit interval), and returns
exactly the pairs scoring strictly above 75, sorted ascending by score. -/
theorem C5_find_similar_files_spec (ratio : String → String → ℚ)
    (hr : ∀ a b, 0 ≤ ratio a b ∧ ratio a b ≤ 1)
    (cwd : String) (listdir : String → List String) (path : String)
    (resolved base file : String) (scored : List (String × Int))
    (hres : resolved = (if pyIsAbs path then path else pyJoin cwd path))
    (hbase : base = pyDirname resolved)
    (hfile : file = pyBasename resolved)
    (hscored : scored = (listdir base).map fun f =>
      (pyJoin base f, intTimes100 (ratio f file))) :
    (∀ a b, intTimes100 (ratio a b) = ⌊ratio a b * 100⌋) ∧
    (∀ p ∈ scored, 0 ≤ p.2 ∧ p.2 ≤ 100) ∧
    List.Sorted (fun p q : String × Int => p.2 ≤ q.2)
      (find_similar_files ratio cwd listdir path) ∧
    (find_similar_files ratio cwd listdir path).Perm
      (scored.filter fun p => 75 < p.2) := by
  subst hscored
  subst hfile
  subst hbase
  subst hres
  refine ⟨fun a b => intTimes100_eq_floor _ (hr a b).1, ?_, ?_, ?_⟩
  · intro p hp
    obtain ⟨f, _, rfl⟩ := List.mem_map.mp hp
    exact ⟨intTimes100_nonneg _ (hr f _).1, intTimes100_le_100 _ (hr f _).1 (hr f _).2⟩
  · exact List.Pairwise.filter _ (List.sorted_insertionSort _ _)
  · exact List.Perm.filter _ (List.perm_insertionSort _ _)

theorem C5_witness :
    (∀ a b, 0 ≤ ratioW a b ∧ ratioW a b ≤ 1) ∧
    ((∀ a b, intTimes100 (ratioW a b) = ⌊ratioW a b * 100⌋) ∧
     (∀ p ∈ [("/d/f", (100 : Int)), ("/d/g", (0 : Int))], 0 ≤ p.2 ∧ p.2 ≤ 100) ∧
     List.Sorted (fun p q : String × Int => p.2 ≤ q.2)
       (find_similar_files ratioW "/w" listdirW "/d/f") ∧
     (find_similar_files ratioW "/w" listdirW "/d/f").Perm
       ([("/d/f", (100 : Int)), ("/d/g", (0 : Int))].filter fun p => 75 < p.2)) := by
  have hr : ∀ a b, 0 ≤ ratioW a b ∧ ratioW a b ≤ 1 := by
    intro a b
    unfold ratioW
    split <;> norm_num
  exact ⟨hr, C5_find_similar_files_spec ratioW hr "/w" listdirW "/d/f"
    "/d/f" "/d" "f" [("/d/f", 100), ("/d/g", 0)] rfl rfl rfl rfl⟩

/-- The context of the C6 code-bug theorem: two symptoms with names of
lengths 2 and 4, rendered in detailed format. -/
def ctxC6 : AlleviateContext :=
  ⟨[Item.symptom "ab" "v", Item.symptom "abcd" "w"], Output.Detailed,
   ⟨"OSError", "m", Option.none, Option.none⟩⟩

/-- The column at which the value starts in a rendered detailed symptom line:
the length of the line rendered with the empty value, minus its trailing
newline. -/
def symptomValueColumn (r : ItemRender) (name : String) : Nat :=
  (ItemRender.render_detailed_symptom r name "").length - 1

/-- Claim C6 (code bug): with the column set to the longest symptom name (4
for ctxC6), the padding formula 1 + len(name) - column yields no spaces for
the shorter name and one space for the longest, so the rendered values start
at columns 6 and 9 instead of a common column: detailed symptom values are
not right-aligned. -/
theorem C6_detailed_symptom_not_aligned :
    render_detailed ctxC6 = Except.ok "   ab:v\n\n   abcd: w\n\n" ∧
    Renderer.render ctxC6 = Except.ok (Rendered.text "   ab:v\n\n   abcd: w\n\n") ∧
    symptomValueColumn { indent := 1, column := 4 } "ab" = 6 ∧
    symptomValueColumn { indent := 1, column := 4 } "abcd" = 9 ∧
    symptomValueColumn { indent := 1, column := 4 } "ab" ≠
      symptomValueColumn { indent := 1, column := 4 } "abcd" :=
  ⟨rfl, rfl, rfl, rfl, by decide⟩

/-- The code object of the C7 code-bug theorem: CPython 2.7 bytecode of a
function body performing os.open("x", mode=0) -- LOAD_GLOBAL os; LOAD_ATTR
open; LOAD_CONST 'x'; LOAD_CONST 'mode'; LOAD_CONST 0; CALL_FUNCTION 257
(one positional, one keyword pair); RETURN_VALUE -- with the call instruction
at byte offset 15. -/
def coC7 : CodeObject :=
  { co_code := [116, 0, 0, 106, 1, 0, 100, 1, 0, 100, 2, 0, 100, 3, 0, 131, 1, 1, 83],
    co_consts := [PyVal.none, .str "x", .str "mode", .int 0],
    co_names := ["os", "open"],
    co_varnames := [], co_cellvars := [], co_freevars := [] }

/-- The frame of the C7 theorem: global name os bound to the os module,
whose open attribute resolves to the os.open callable. -/
def frameC7 : Frame :=
  { f_globals := fun s => if s = "os" then some (.obj "os") else Option.none,
    f_locals := fun _ => Option.none,
    hasBuiltins := true, builtinNames := [], builtinEval := fun _ => PyVal.none,
    getattrFn := fun v s =>
      if v = PyVal.obj "os" ∧ s = "open" then some (.obj "os.open") else Option.none }

/-- Claim C7 (code bug): on the compiled call os.open("x", mode=0),
get_function_and_args does return the dotted name "os.open", but the
positional-argument list comes out as ['x', 'mode', 0] and the keyword
mapping comes out empty, because _disas_call's operand window
instructions[tos - stack - 1 : tos] excludes the CALL_FUNCTION instruction at
tos, so the call's operand counts are read from the last LOAD_CONST instead
of the call opcode. -/
theorem C7_get_function_and_args_result :
    ∃ info : CallInfo,
      get_function_and_args coC7 15 frameC7 = Except.ok (some info) ∧
      info.name = "os.open" ∧
      info.args = [PyVal.str "x", PyVal.str "mode", PyVal.int 0] ∧
      info.kwargs = [] :=
  ⟨⟨"os.open", PyVal.obj "os.open", [PyVal.str "x", PyVal.str "mode", PyVal.int 0], []⟩,
   rfl, rfl, rfl, rfl⟩

/-- Claim C8: rendering validates nothing: with no Description item the json
path raises IndexError (indexing the first element of an empty list), and
with no Symptom item the detailed path raises ValueError (max over an empty
generator); in both cases the result is a raised exception, not a degraded
report. -/
theorem C8_render_without_validation :
    (∀ ctx : AlleviateContext, ctx.format = Output.JSON →
      (∀ t, Item.description t ∉ ctx.items) →
      Renderer.render ctx = Except.error PyErr.indexError) ∧
    (∀ ctx : AlleviateContext, ctx.format = Output.Detailed →
      (∀ n v, Item.symptom n v ∉ ctx.items) →
      Renderer.render ctx = Except.error PyErr.valueError) := by
  constructor
  · intro ctx hf hno
    have hfil : ctx.items.filter Item.isDescription = [] := by
      rw [List.filter_eq_nil_iff]
      intro a ha
      cases a with
      | description t => exact absurd ha (hno t)
      | _ => simp [Item.isDescription]
    simp [Renderer.render, hf, render_json, hfil, Except.map]
  · intro ctx hf hno
    have hfil : ctx.items.filter Item.isSymptom = [] := by
      rw [List.filter_eq_nil_iff]
      intro a ha
      cases a with
      | symptom n v => exact absurd ha (hno n v)
      | _ => simp [Item.isSymptom]
    simp [Renderer.render, hf, render_detailed, hfil, Except.map]

/-- Concrete contexts of the C8 witness. -/
def ctxC8a : AlleviateContext :=
  ⟨[Item.header "H"], Output.JSON, ⟨"OSError", "m", Option.none, Option.none⟩⟩

def ctxC8b : AlleviateContext :=
  ⟨[Item.description "D"], Output.Detailed, ⟨"OSError", "m", Option.none, Option.none⟩⟩

theorem C8_witness :
    Renderer.render ctxC8a = Except.error PyErr.indexError ∧
    Renderer.render ctxC8b = Except.error PyErr.valueError :=
  ⟨C8_render_without_validation.1 ctxC8a rfl (by intro t h; simp [ctxC8a] at h),
   C8_render_without_validation.2 ctxC8b rfl (by intro n v h; simp [ctxC8b] at h)⟩

/-- Claim C9: the instruction list disassemble decodes carries, for every
argument-bearing instruction, the operand prescribed by the specification:
the first operand byte plus 256 times the second, plus the pending
extended-argument carry; an extended-argument instruction sets the carry to
its own decoded operand times 65536, the carry is added to exactly the next
argument-bearing instruction's raw operand, and it is reset to zero
afterwards (specArgOpargs is that prescription, written from the spec). -/
theorem C9_disassemble_operands (co : CodeObject) (lasti tos : Nat)
    (insns : List Opcode) (h : disassemble co lasti = Except.ok (tos, insns)) :
    argOpargs insns = specArgOpargs co.co_code 0 :=
  disasLoop_argOpargs co lasti co.co_code.length co.co_code (le_refl _)
    0 0 Option.none 0 0 tos insns h

/-- The code object of the C9 witness: EXTENDED_ARG with operand 1 followed
by JUMP_FORWARD with raw operand 2, which must decode to 2 + 65536. -/
def coC9w : CodeObject :=
  { co_code := [145, 1, 0, 110, 2, 0],
    co_consts := [], co_names := [], co_varnames := [], co_cellvars := [],
    co_freevars := [] }

theorem C9_witness :
    disassemble coC9w 0 = Except.ok (0,
      [⟨145, 1, 1, PyVal.none⟩, ⟨110, 2, 65538, PyVal.int 65544⟩]) ∧
    argOpargs [⟨145, 1, 1, PyVal.none⟩, ⟨110, 2, 65538, PyVal.int 65544⟩] =
      specArgOpargs coC9w.co_code 0 :=
  ⟨rfl, C9_disassemble_operands coC9w 0 0
    [⟨145, 1, 1, PyVal.none⟩, ⟨110, 2, 65538, PyVal.int 65544⟩] rfl⟩

/-- Claim C10: when the resolved target's base filename is itself an entry of
its parent directory, find_similar_files keeps the exact match as a
(full_path, 100) pair, and since no distinct sibling reaches score 100 and
the result is sorted ascending by score, that pair is the last element. -/
theorem C10_self_match_last (ratio : String → String → ℚ)
    (hr : ∀ a b, 0 ≤ ratio a b ∧ ratio a b ≤ 1)
    (hone : ∀ a b, ratio a b = 1 ↔ a = b)
    (cwd : String) (listdir : String → List String) (path : String)
    (resolved base file : String)
    (hres : resolved = (if pyIsAbs path then path else pyJoin cwd path))
    (hbase : base = pyDirname resolved)
    (hfile : file = pyBasename resolved)
    (hmem : file ∈ listdir base) :
    (pyJoin base file, (100 : Int)) ∈ find_similar_files ratio cwd listdir path ∧
    (find_similar_files ratio cwd listdir path).getLast? =
      some (pyJoin base file, 100) := by
  subst hfile
  subst hbase
  subst hres
  set file := pyBasename (if pyIsAbs path then path else pyJoin cwd path) with hfdef
  set base := pyDirname (if pyIsAbs path then path else pyJoin cwd path) with hbdef
  have hratio1 : ratio file file = 1 := (hone file file).mpr rfl
  have hself : intTimes100 (ratio file file) = 100 := by
    rw [hratio1]
    exact intTimes100_one
  have hF : find_similar_files ratio cwd listdir path =
      (pySortedByScore ((listdir base).map fun f =>
        (pyJoin base f, intTimes100 (ratio f file)))).filter
        (fun p => SIMILARITY_CUTOFF < p.2) := rfl
  have hmem_scored : (pyJoin base file, (100 : Int)) ∈
      (listdir base).map fun f => (pyJoin base f, intTimes100 (ratio f file)) :=
    List.mem_map.mpr ⟨file, hmem, by rw [hself]⟩
  have hmemF : (pyJoin base file, (100 : Int)) ∈
      find_similar_files ratio cwd listdir path := by
    rw [hF]
    refine List.mem_filter.mpr
      ⟨((List.perm_insertionSort _ _).mem_iff).mpr hmem_scored, ?_⟩
    show decide (SIMILARITY_CUTOFF < (100 : Int)) = true
    decide
  refine ⟨hmemF, ?_⟩
  have hne : find_similar_files ratio cwd listdir path ≠ [] :=
    List.ne_nil_of_mem hmemF
  have hsorted : List.Pairwise (fun p q : String × Int => p.2 ≤ q.2)
      (find_similar_files ratio cwd listdir path) := by
    rw [hF]
    exact List.Pairwise.filter _ (List.sorted_insertionSort _ _)
  rw [List.getLast?_eq_getLast _ hne]
  obtain ⟨lastp, hlp⟩ : ∃ p, (find_similar_files ratio cwd listdir path).getLast hne = p :=
    ⟨_, rfl⟩
  rw [hlp]
  rcases pairwise_rel_getLast hsorted hmemF hne with heq | hrel
  · rw [← hlp, ← heq]
  · rw [hlp] at hrel
    have hlast_mem : lastp ∈ find_similar_files ratio cwd listdir path := by
      rw [← hlp]
      exact List.getLast_mem hne
    have hlast_scored : lastp ∈
        (listdir base).map fun f => (pyJoin base f, intTimes100 (ratio f file)) := by
      rw [hF] at hlast_mem
      exact ((List.perm_insertionSort _ _).mem_iff).mp (List.mem_filter.mp hlast_mem).1
    obtain ⟨f2, hf2mem, hf2eq⟩ := List.mem_map.mp hlast_scored
    have hle : lastp.2 ≤ 100 := by
      rw [← hf2eq]
      exact intTimes100_le_100 _ (hr f2 file).1 (hr f2 file).2
    have h100 : lastp.2 = 100 := le_antisymm hle hrel
    have hv : intTimes100 (ratio f2 file) = 100 := by
      rw [← hf2eq] at h100
      exact h100
    have hr1 : ratio f2 file = 1 := by
      by_contra hne1
      have hlt : ratio f2 file < 1 := lt_of_le_of_ne (hr f2 file).2 hne1
      have := intTimes100_lt_100 _ (hr f2 file).1 hlt
      omega
    have hf2 : f2 = file := (hone f2 file).mp hr1
    subst hf2
    rw [← hf2eq, hself]

/-- Concrete environment and error of the C2 witness. -/
def envC2w : Env :=
  { cwd := "/w", funcName := "os.open()", listdir := listdirW, ratio := ratioW,
    stat := fun _ => Option.none }

def excC2w : PyExc :=
  { typeName := "IOError", message := "m", errno := some ENOENT,
    filename := some "/d/f" }

theorem C2_witness :
    excC2w.filename = some "/d/f" ∧
    excC2w.errno = some ENOENT ∧
    (∃ (ctx : AlleviateContext) (r : Rendered),
      Enoent_run envC2w excC2w Output.Plain = Except.ok (ctx, [Printed.rendered r]) ∧
      Renderer.render ctx = Except.ok r ∧
      ctx.format = Output.Plain ∧
      ctx.exception = excC2w ∧
      ctx.items = [
        Item.header "Program error",
        Item.description "File /d/f could not be found\n\nErrno:  2 (ENOENT)\nAction: os.open()",
        Item.separator 0,
        Item.header "Symptoms",
        Item.symptom "File does not exist" "/d/f",
        Item.separator 0,
        Item.header "Solutions",
        Item.solution "Check out files with similar name" "      /d/f similarity: 100%\n"]) :=
  ⟨rfl, rfl, C2_enoent_report envC2w excC2w Output.Plain "/d/f" rfl rfl⟩

theorem C10_witness :
    (∀ a b, 0 ≤ ratioW a b ∧ ratioW a b ≤ 1) ∧
    (∀ a b, ratioW a b = 1 ↔ a = b) ∧
    ("f" : String) ∈ listdirW "/d" ∧
    (("/d/f", (100 : Int)) ∈ find_similar_files ratioW "/w" listdirW "/d/f" ∧
     (find_similar_files ratioW "/w" listdirW "/d/f").getLast? = some ("/d/f", 100)) := by
  have hr : ∀ a b, 0 ≤ ratioW a b ∧ ratioW a b ≤ 1 := by
    intro a b
    unfold ratioW
    split <;> norm_num
  have hone : ∀ a b, ratioW a b = 1 ↔ a = b := by
    intro a b
    by_cases h : a = b
    · simp [ratioW, h]
    · simp [ratioW, h]
  exact ⟨hr, hone, by decide,
    C10_self_match_last ratioW hr hone "/w" listdirW "/d/f" "/d/f" "/d" "f"
      rfl rfl rfl (by decide)⟩
